import Mathlib

/-!
Verification of the OGGM tutorials repository: a shallow embedding of the
numerical logic shown in the frontal-ablation tutorial (calving law,
shallow-ice flux law, the water-depth reconciliation procedure and its
clipping fallback), of the area/length spike filter, of the batch
error-handling convention, of the repository file inventory and of the
documentation CI workflow, together with theorems settling the claims
about them.
-/

namespace OGGM

/-! ## Calving law (eq. 1 of the frontal-ablation tutorial)

The tutorial states the Oerlemans and Nick (2005) law
q = k * h * d * w with d = h - E (E the free board), and that the flux
is zero as long as the ice is not thick enough to reach the water
surface. We embed exactly this over the rationals. -/

/-- Fixed glacier-front configuration: calibration parameter k,
terminus width w, and free board E (ice surface height above water). -/
structure FrontGeom where
  k : ℚ
  width : ℚ
  free_board : ℚ

/-- Water depth implied by a frontal ice thickness at fixed free board:
d = h - E. -/
def water_depth (g : FrontGeom) (h : ℚ) : ℚ :=
  h - g.free_board

/-- Calving flux as a function of the frontal thickness:
q = k * h * (h - E) * w, clipped below at zero (the tutorial: the flux
is zero as long as the ice does not reach the water surface). -/
def calving_flux_from_thick (g : FrontGeom) (h : ℚ) : ℚ :=
  max (g.k * h * water_depth g h * g.width) 0

/-- Calving flux as a function of the water depth, the form used by the
tutorial cells (thickness recomputed as h = wd + E):
q = k * (wd + E) * wd * w, clipped below at zero. -/
def calving_flux_from_depth (g : FrontGeom) (wd : ℚ) : ℚ :=
  max (g.k * (wd + g.free_board) * wd * g.width) 0

/-- C4: for every frontal ice thickness h at a front with fixed free
board and terminus width, the calving law returns q = k * h * d * w with
water depth d = h - E; the flux is zero for every thickness small enough
that the ice does not reach the water surface (d <= 0), and once d > 0
the flux varies with h as a polynomial of degree 2. -/
theorem calving_law_flux_spec (g : FrontGeom) (hk : 0 < g.k) (hw : 0 < g.width) :
    (∀ h : ℚ, 0 ≤ h → 0 ≤ water_depth g h →
      calving_flux_from_thick g h = g.k * h * water_depth g h * g.width) ∧
    (∀ h : ℚ, 0 ≤ h → water_depth g h ≤ 0 →
      calving_flux_from_thick g h = 0) ∧
    (∃ a b : ℚ, a ≠ 0 ∧ ∀ h : ℚ, 0 ≤ h → 0 < water_depth g h →
      calving_flux_from_thick g h = a * h ^ 2 + b * h) := by
  refine ⟨?_, ?_, ?_⟩
  · intro h h0 hd
    have hprod : 0 ≤ g.k * h * water_depth g h * g.width := by
      have h1 : 0 ≤ g.k * h := mul_nonneg hk.le h0
      have h2 : 0 ≤ g.k * h * water_depth g h := mul_nonneg h1 hd
      exact mul_nonneg h2 hw.le
    exact max_eq_left hprod
  · intro h h0 hd
    have hprod : g.k * h * water_depth g h * g.width ≤ 0 := by
      have h1 : 0 ≤ g.k * h := mul_nonneg hk.le h0
      have h2 : g.k * h * water_depth g h ≤ 0 := mul_nonpos_of_nonneg_of_nonpos h1 hd
      exact mul_nonpos_of_nonpos_of_nonneg h2 hw.le
    exact max_eq_right hprod
  · refine ⟨g.k * g.width, -(g.k * g.width * g.free_board), ?_, ?_⟩
    · exact ne_of_gt (mul_pos hk hw)
    · intro h h0 hd
      have hprod : 0 ≤ g.k * h * water_depth g h * g.width := by
        have h1 : 0 ≤ g.k * h := mul_nonneg hk.le h0
        have h2 : 0 ≤ g.k * h * water_depth g h := mul_nonneg h1 hd.le
        exact mul_nonneg h2 hw.le
      rw [calving_flux_from_thick, max_eq_left hprod, water_depth]
      ring

/-- Witness for C4 at the concrete front k = 12/5, w = 100, E = 85. -/
theorem calving_law_flux_spec_witness :
    (0 : ℚ) < 12 / 5 ∧ (0 : ℚ) < 100 ∧
    ((∀ h : ℚ, 0 ≤ h → 0 ≤ water_depth ⟨12 / 5, 100, 85⟩ h →
      calving_flux_from_thick ⟨12 / 5, 100, 85⟩ h =
        (12 / 5 : ℚ) * h * water_depth ⟨12 / 5, 100, 85⟩ h * 100) ∧
    (∀ h : ℚ, 0 ≤ h → water_depth ⟨12 / 5, 100, 85⟩ h ≤ 0 →
      calving_flux_from_thick ⟨12 / 5, 100, 85⟩ h = 0) ∧
    (∃ a b : ℚ, a ≠ 0 ∧ ∀ h : ℚ, 0 ≤ h → 0 < water_depth ⟨12 / 5, 100, 85⟩ h →
      calving_flux_from_thick ⟨12 / 5, 100, 85⟩ h = a * h ^ 2 + b * h)) :=
  ⟨by norm_num, by norm_num,
    calving_law_flux_spec ⟨12 / 5, 100, 85⟩ (by norm_num) (by norm_num)⟩

/-! ## Shallow-ice deformation flux law (sia_thickness)

The function sia_thickness lives in the external OGGM library
(oggm.core.inversion); the tutorial only imports it and describes it:
Glen flow law with n = 3 relating ice thickness to the flux with a 5th
degree polynomial, and sliding adding a term in degree 3. -/

/-- Frontal geometry parameters of the shallow-ice flux law: Glen creep
parameter A, the product rho * g * slope, and the terminus width. -/
structure SiaParams where
  glen_a : ℚ
  rho_g_slope : ℚ
  width : ℚ

/-- Modelled from the spec: the shallow-ice deformation flux at frontal
thickness h (the flux side of the external sia_thickness relation),
with Glen exponent n = 3 and sliding parameter fs:
q = w * ((2 A / (n + 2)) * (rho g slope)^3 * h^5 + fs * (rho g slope)^3 * h^3). -/
def sia_flux (p : SiaParams) (fs h : ℚ) : ℚ :=
  p.width * (2 * p.glen_a / 5 * p.rho_g_slope ^ 3 * h ^ 5
    + fs * p.rho_g_slope ^ 3 * h ^ 3)

/-- Modelled from the spec: the external sia_thickness maps a prescribed
flux q to a frontal thickness h; its defining relation is that the
shallow-ice flux at h equals q. -/
def sia_thickness_rel (p : SiaParams) (fs q h : ℚ) : Prop :=
  sia_flux p fs h = q

/-- C5: the ice-deformation flux law relates geometry and flux to the
frontal thickness through a degree 5 polynomial relation in the
thickness; enabling sliding adds a term of degree 3 but does not change
the form of the relation. -/
theorem sia_flux_polynomial_spec (p : SiaParams) (fs : ℚ)
    (ha : 0 < p.glen_a) (hs : 0 < p.rho_g_slope) (hw : 0 < p.width) :
    ∃ c5 c3 : ℚ, c5 ≠ 0 ∧
      (∀ h : ℚ, sia_flux p fs h = c5 * h ^ 5 + c3 * h ^ 3) ∧
      (∀ h : ℚ, sia_flux p 0 h = c5 * h ^ 5) ∧
      (∀ h : ℚ, sia_flux p fs h
        = sia_flux p 0 h + p.width * fs * p.rho_g_slope ^ 3 * h ^ 3) ∧
      (∀ q h : ℚ, sia_thickness_rel p fs q h ↔ c5 * h ^ 5 + c3 * h ^ 3 = q) := by
  refine ⟨p.width * (2 * p.glen_a / 5) * p.rho_g_slope ^ 3,
    p.width * fs * p.rho_g_slope ^ 3, ?_, ?_, ?_, ?_, ?_⟩
  · have h1 : 0 < 2 * p.glen_a / 5 := by positivity
    have h2 : 0 < p.rho_g_slope ^ 3 := by positivity
    positivity
  · intro h; rw [sia_flux]; ring
  · intro h; rw [sia_flux]; ring
  · intro h; rw [sia_flux, sia_flux]; ring
  · intro q h
    rw [sia_thickness_rel, sia_flux]
    constructor
    · intro he; rw [← he]; ring
    · intro he; rw [← he]; ring

/-- Witness for C5 at concrete parameters A = 1/2, rho g slope = 2,
w = 3, fs = 7. -/
theorem sia_flux_polynomial_spec_witness :
    (0 : ℚ) < 1 / 2 ∧ (0 : ℚ) < 2 ∧ (0 : ℚ) < 3 ∧
    (∃ c5 c3 : ℚ, c5 ≠ 0 ∧
      (∀ h : ℚ, sia_flux ⟨1 / 2, 2, 3⟩ 7 h = c5 * h ^ 5 + c3 * h ^ 3) ∧
      (∀ h : ℚ, sia_flux ⟨1 / 2, 2, 3⟩ 0 h = c5 * h ^ 5) ∧
      (∀ h : ℚ, sia_flux ⟨1 / 2, 2, 3⟩ 7 h
        = sia_flux ⟨1 / 2, 2, 3⟩ 0 h + 3 * 7 * (2 : ℚ) ^ 3 * h ^ 3) ∧
      (∀ q h : ℚ, sia_thickness_rel ⟨1 / 2, 2, 3⟩ 7 q h ↔
        c5 * h ^ 5 + c3 * h ^ 3 = q)) :=
  ⟨by norm_num, by norm_num, by norm_num,
    sia_flux_polynomial_spec ⟨1 / 2, 2, 3⟩ 7 (by norm_num) (by norm_num) (by norm_num)⟩

/-! ## The reconciliation procedure

The tutorial defines to_solve_default wd = fl.thick - sia_thickness
(slope, width, fl.flux converted to model units) with fl the calving law
output at water depth wd, locates the interior minimum of this function
on the bounded domain [1e-4, 1e4] with a bound-constrained minimizer,
then calls optimize.brentq on [1e-4, xmin] and on [xmin, 1e4], and keeps
the larger root. The external sia_thickness composed with the unit
conversion is kept abstract as a function sia, and optimize.brentq is
kept abstract as a bracketing root finder. -/

/-- Signed thickness-difference function of the tutorial cell:
calving-law thickness at water depth wd (wd + free board) minus the
thickness the ice-deformation law assigns to the calving-law flux at wd.
The function sia stands for the external sia_thickness at the fixed
front geometry, composed with the flux unit conversion. -/
def to_solve_default (g : FrontGeom) (sia : ℚ → ℚ) (wd : ℚ) : ℚ :=
  (wd + g.free_board) - sia (calving_flux_from_depth g wd)

/-- Lower bound 1e-4 of the water-depth search domain. -/
def domLo : ℚ := 1 / 10000

/-- Upper bound 1e4 of the water-depth search domain. -/
def domHi : ℚ := 10000

/-- The two brentq calls of the tutorial: root search on the
sub-interval below the located minimum and on the sub-interval above it. -/
def reconcile_roots (brentq : ℚ → ℚ → ℚ) (xmin : ℚ) : ℚ × ℚ :=
  (brentq domLo xmin, brentq xmin domHi)

/-- The value the procedure returns: the root of the upper bracket
(opt = optimize.brentq (to_solve_default, abs_min, 1e4)). -/
def reconcile_opt (brentq : ℚ → ℚ → ℚ) (xmin : ℚ) : ℚ :=
  (reconcile_roots brentq xmin).2

/-- The point x is an interior minimum of d over the bounded search
domain [domLo, domHi]. -/
def IsInteriorMin (d : ℚ → ℚ) (x : ℚ) : Prop :=
  domLo < x ∧ x < domHi ∧ ∀ y : ℚ, domLo ≤ y → y ≤ domHi → d x ≤ d y

/-- Modelled from the spec: the contract of the external
scipy.optimize.brentq applied to d, missing from this repository:
on any bracket with a sign change it returns a root inside the bracket. -/
def BrentqSound (d : ℚ → ℚ) (brentq : ℚ → ℚ → ℚ) : Prop :=
  ∀ a b : ℚ, a ≤ b → d a * d b ≤ 0 →
    a ≤ brentq a b ∧ brentq a b ≤ b ∧ d (brentq a b) = 0

/-- C1: whenever the difference function has an interior minimum on
[1e-4, 1e4] and a sign change on each side of it, the procedure obtains
one root on each side: the lower brentq call yields a root in
[1e-4, xmin] and the upper one a root in [xmin, 1e4]. -/
theorem reconcile_roots_on_each_side (g : FrontGeom) (sia : ℚ → ℚ)
    (brentq : ℚ → ℚ → ℚ) (xmin : ℚ)
    (hmin : IsInteriorMin (to_solve_default g sia) xmin)
    (hlo : 0 < to_solve_default g sia domLo)
    (hmid : to_solve_default g sia xmin < 0)
    (hhi : 0 < to_solve_default g sia domHi)
    (hb : BrentqSound (to_solve_default g sia) brentq) :
    (domLo ≤ (reconcile_roots brentq xmin).1 ∧
      (reconcile_roots brentq xmin).1 ≤ xmin ∧
      to_solve_default g sia (reconcile_roots brentq xmin).1 = 0) ∧
    (xmin ≤ (reconcile_roots brentq xmin).2 ∧
      (reconcile_roots brentq xmin).2 ≤ domHi ∧
      to_solve_default g sia (reconcile_roots brentq xmin).2 = 0) := by
  obtain ⟨h1, h2, _⟩ := hmin
  have hs1 : to_solve_default g sia domLo * to_solve_default g sia xmin ≤ 0 :=
    (mul_neg_of_pos_of_neg hlo hmid).le
  have hs2 : to_solve_default g sia xmin * to_solve_default g sia domHi ≤ 0 :=
    (mul_neg_of_neg_of_pos hmid hhi).le
  have r1 := hb domLo xmin h1.le hs1
  have r2 := hb xmin domHi h2.le hs2
  exact ⟨⟨r1.1, r1.2.1, r1.2.2⟩, ⟨r2.1, r2.2.1, r2.2.2⟩⟩

/-- C2: when the difference function has a root on each side of its
interior minimum, the procedure returns the root of the upper bracket,
which is strictly larger than both the minimum location and the lower
root: it never returns the smaller root below the minimum. -/
theorem reconcile_returns_larger_root (g : FrontGeom) (sia : ℚ → ℚ)
    (brentq : ℚ → ℚ → ℚ) (xmin : ℚ)
    (hmin : IsInteriorMin (to_solve_default g sia) xmin)
    (hlo : 0 < to_solve_default g sia domLo)
    (hmid : to_solve_default g sia xmin < 0)
    (hhi : 0 < to_solve_default g sia domHi)
    (hb : BrentqSound (to_solve_default g sia) brentq) :
    reconcile_opt brentq xmin = (reconcile_roots brentq xmin).2 ∧
    to_solve_default g sia (reconcile_opt brentq xmin) = 0 ∧
    (reconcile_roots brentq xmin).1 < reconcile_opt brentq xmin ∧
    xmin < reconcile_opt brentq xmin := by
  obtain ⟨h1, h2, _⟩ := hmin
  have hs1 : to_solve_default g sia domLo * to_solve_default g sia xmin ≤ 0 :=
    (mul_neg_of_pos_of_neg hlo hmid).le
  have hs2 : to_solve_default g sia xmin * to_solve_default g sia domHi ≤ 0 :=
    (mul_neg_of_neg_of_pos hmid hhi).le
  have r1 := hb domLo xmin h1.le hs1
  have r2 := hb xmin domHi h2.le hs2
  have hne : xmin ≠ (reconcile_roots brentq xmin).2 := by
    intro he
    have he2 : xmin = brentq xmin domHi := he
    rw [← he2] at r2
    exact absurd r2.2.2 (ne_of_lt hmid)
  have hgt : xmin < (reconcile_roots brentq xmin).2 := lt_of_le_of_ne r2.1 hne
  exact ⟨rfl, r2.2.2, lt_of_le_of_lt r1.2.1 hgt, hgt⟩

/-! ### Concrete witness configuration for the reconciliation claims -/

/-- Concrete front geometry for the witnesses: k = 1, w = 1, E = 0. -/
def gEx : FrontGeom := ⟨1, 1, 0⟩

/-- Concrete stand-in for the external deformation thickness function:
thickness min q 100 at flux q, continuous and increasing-then-saturated. -/
def siaEx : ℚ → ℚ := fun q => min q 100

/-- The difference function of the witness configuration. -/
def dEx : ℚ → ℚ := to_solve_default gEx siaEx

/-- Concrete bracketing root finder for the witness configuration: the
roots of dEx are 0, 1 and 100. -/
def brEx : ℚ → ℚ → ℚ := fun a b =>
  if a ≤ 0 ∧ 0 ≤ b ∧ b < 1 then 0 else if a ≤ 1 ∧ 1 ≤ b then 1 else 100

theorem dEx_eq (y : ℚ) : dEx y = y - min (y ^ 2) 100 := by
  have h1 : (1 : ℚ) * (y + 0) * y * 1 = y ^ 2 := by ring
  simp only [dEx, to_solve_default, calving_flux_from_depth, gEx, siaEx]
  rw [h1, max_eq_left (sq_nonneg y)]
  ring

theorem dEx_le_self (y : ℚ) : dEx y ≤ y := by
  rw [dEx_eq]
  have h0 : (0 : ℚ) ≤ min (y ^ 2) 100 := le_min (sq_nonneg y) (by norm_num)
  linarith

theorem dEx_pos_of_between (y : ℚ) (h0 : 0 < y) (h1 : y < 1) : 0 < dEx y := by
  rw [dEx_eq]
  have hy2 : y ^ 2 ≤ 100 := by nlinarith
  rw [min_eq_left hy2]
  nlinarith

theorem dEx_neg_mid (y : ℚ) (h1 : 1 < y) (h2 : y < 100) : dEx y < 0 := by
  rw [dEx_eq]
  rcases le_or_lt (y ^ 2) 100 with hc | hc
  · rw [min_eq_left hc]; nlinarith
  · rw [min_eq_right hc.le]; linarith

theorem dEx_pos_high (y : ℚ) (h : 100 < y) : 0 < dEx y := by
  rw [dEx_eq]
  have h2 : (100 : ℚ) ≤ y ^ 2 := by nlinarith
  rw [min_eq_right h2]
  linarith

theorem dEx_root0 : dEx 0 = 0 := by rw [dEx_eq]; norm_num
theorem dEx_root1 : dEx 1 = 0 := by rw [dEx_eq]; norm_num
theorem dEx_root100 : dEx 100 = 0 := by rw [dEx_eq]; norm_num

theorem dEx_at_ten : dEx 10 = -90 := by rw [dEx_eq]; norm_num

theorem dEx_interior_min : IsInteriorMin dEx 10 := by
  refine ⟨by norm_num [domLo], by norm_num [domHi], ?_⟩
  intro y hy1 hy2
  rw [dEx_at_ten, dEx_eq]
  rw [domLo] at hy1
  rcases le_or_lt (y ^ 2) 100 with hc | hc
  · rw [min_eq_left hc]
    have hy10 : y ≤ 10 := by nlinarith
    nlinarith
  · rw [min_eq_right hc.le]
    have hy10 : 10 < y := by nlinarith
    linarith

theorem brEx_sound : BrentqSound dEx brEx := by
  intro a b hab hsign
  simp only [brEx]
  by_cases h1 : a ≤ 0 ∧ 0 ≤ b ∧ b < 1
  · rw [if_pos h1]
    exact ⟨h1.1, h1.2.1, dEx_root0⟩
  · rw [if_neg h1]
    by_cases h2 : a ≤ 1 ∧ 1 ≤ b
    · rw [if_pos h2]
      exact ⟨h2.1, h2.2, dEx_root1⟩
    · rw [if_neg h2]
      push_neg at h2
      rcases lt_or_le (1 : ℚ) a with hA | hA
      · refine ⟨?_, ?_, dEx_root100⟩
        · by_contra hcon
          push_neg at hcon
          have hda : 0 < dEx a := dEx_pos_high a hcon
          have hdb : 0 < dEx b := dEx_pos_high b (lt_of_lt_of_le hcon hab)
          nlinarith [mul_pos hda hdb]
        · by_contra hcon
          push_neg at hcon
          have hda : dEx a < 0 := dEx_neg_mid a hA (lt_of_le_of_lt hab hcon)
          have hdb : dEx b < 0 := dEx_neg_mid b (lt_of_lt_of_le hA hab) hcon
          nlinarith [mul_pos_of_neg_of_neg hda hdb]
      · exfalso
        have hb1 : b < 1 := h2 hA
        rcases lt_or_le b 0 with hbneg | hbpos
        · have hda : dEx a < 0 :=
            lt_of_le_of_lt (dEx_le_self a) (lt_of_le_of_lt hab hbneg)
          have hdb : dEx b < 0 := lt_of_le_of_lt (dEx_le_self b) hbneg
          nlinarith [mul_pos_of_neg_of_neg hda hdb]
        · have hapos : 0 < a := by
            by_contra hcon
            push_neg at hcon
            exact h1 ⟨hcon, hbpos, hb1⟩
          have hda : 0 < dEx a := dEx_pos_of_between a hapos (lt_of_le_of_lt hab hb1)
          have hdb : 0 < dEx b :=
            dEx_pos_of_between b (lt_of_lt_of_le hapos hab) hb1
          nlinarith [mul_pos hda hdb]

/-- Witness for C1 at the concrete configuration gEx, siaEx, brEx with
interior minimum at water depth 10. -/
theorem reconcile_roots_on_each_side_witness :
    (domLo ≤ (reconcile_roots brEx 10).1 ∧
      (reconcile_roots brEx 10).1 ≤ 10 ∧
      to_solve_default gEx siaEx (reconcile_roots brEx 10).1 = 0) ∧
    (10 ≤ (reconcile_roots brEx 10).2 ∧
      (reconcile_roots brEx 10).2 ≤ domHi ∧
      to_solve_default gEx siaEx (reconcile_roots brEx 10).2 = 0) := by
  exact reconcile_roots_on_each_side gEx siaEx brEx 10 dEx_interior_min
    (dEx_pos_of_between domLo (by norm_num [domLo]) (by norm_num [domLo]))
    (by rw [show to_solve_default gEx siaEx 10 = dEx 10 from rfl, dEx_at_ten]; norm_num)
    (dEx_pos_high domHi (by norm_num [domHi]))
    brEx_sound

/-- Witness for C2 at the same concrete configuration. -/
theorem reconcile_returns_larger_root_witness :
    reconcile_opt brEx 10 = (reconcile_roots brEx 10).2 ∧
    to_solve_default gEx siaEx (reconcile_opt brEx 10) = 0 ∧
    (reconcile_roots brEx 10).1 < reconcile_opt brEx 10 ∧
    (10 : ℚ) < reconcile_opt brEx 10 := by
  exact reconcile_returns_larger_root gEx siaEx brEx 10 dEx_interior_min
    (dEx_pos_of_between domLo (by norm_num [domLo]) (by norm_num [domLo]))
    (by rw [show to_solve_default gEx siaEx 10 = dEx 10 from rfl, dEx_at_ten]; norm_num)
    (dEx_pos_high domHi (by norm_num [domHi]))
    brEx_sound

/-! ## The clipping fallback of find_inversion_calving

The task find_inversion_calving lives in the external OGGM library; the
tutorial describes its fallback: when no water depth reconciles the two
flux laws, mu star is clipped to a floor (zero, or the configurable
fraction cfg.PARAMS calving_min_mu_star_frac of its calving-free value)
and the returned flux is the deformation flux of the clipped mass
balance instead of the calving-law flux. -/

/-- Modelled from the spec: the inputs that decide the fallback branch of
find_inversion_calving. dLo, dMin and dHi are the values of the
difference function at the lower domain bound, at its interior minimum
and at the upper bound; mu_solved and q_calving are the calibrated mu
star and the calving-law flux of the root branch; frac is the parameter
cfg.PARAMS calving_min_mu_star_frac and mu_free the mu star of the
calving-free calibration. -/
structure CalvingSolveInput where
  dLo : ℚ
  dMin : ℚ
  dHi : ℚ
  mu_solved : ℚ
  q_calving : ℚ
  frac : ℚ
  mu_free : ℚ

/-- The difference function admits a sign change on one of the two
brackets around its minimum. -/
def has_sign_change (i : CalvingSolveInput) : Bool :=
  decide (i.dLo * i.dMin ≤ 0) || decide (i.dMin * i.dHi ≤ 0)

/-- The floor to which mu star is clipped: the configured fraction of
its calving-free value (zero when the fraction is zero). -/
def mu_floor (i : CalvingSolveInput) : ℚ :=
  i.frac * i.mu_free

/-- Modelled from the spec: the branch structure of the external
find_inversion_calving. When a sign change exists the procedure returns
the calibrated mu star and the calving-law flux; otherwise it clips mu
star to the floor and derives the flux from the mass balance under the
clipped parameter (the deformation flux q_oggm). Returns the pair
(mu star, flux). -/
def find_inversion_calving_model (i : CalvingSolveInput)
    (q_oggm : ℚ → ℚ) : ℚ × ℚ :=
  if has_sign_change i then (i.mu_solved, i.q_calving)
  else (mu_floor i, q_oggm (mu_floor i))

/-- C3: if the configuration admits no sign change of the difference
function, mu star is clipped to the floor frac * mu_free (zero when the
configured fraction is zero) and the returned flux is the deformation
flux of the clipped mass balance, not the calving-law flux. -/
theorem no_sign_change_clips_mu_star (i : CalvingSolveInput)
    (q_oggm : ℚ → ℚ)
    (h1 : 0 < i.dLo * i.dMin) (h2 : 0 < i.dMin * i.dHi) :
    (find_inversion_calving_model i q_oggm).1 = i.frac * i.mu_free ∧
    (find_inversion_calving_model i q_oggm).2
      = q_oggm ((find_inversion_calving_model i q_oggm).1) ∧
    (i.frac = 0 → (find_inversion_calving_model i q_oggm).1 = 0) := by
  have hsc : has_sign_change i = false := by
    rw [has_sign_change]
    simp only [Bool.or_eq_false_iff, decide_eq_false_iff_not, not_le]
    exact ⟨h1, h2⟩
  rw [find_inversion_calving_model, hsc]
  refine ⟨rfl, rfl, ?_⟩
  intro hf
  rw [mu_floor, hf, zero_mul]
  rfl

/-- Witness for C3: a configuration with both products positive (no
sign change), fraction 7/10 and calving-free mu star 20. -/
theorem no_sign_change_clips_mu_star_witness :
    (0 : ℚ) < 2 * 1 ∧ (0 : ℚ) < 1 * 3 ∧
    ((find_inversion_calving_model ⟨2, 1, 3, 5, 9, 7 / 10, 20⟩ (fun m => m + 1)).1
        = 7 / 10 * 20 ∧
      (find_inversion_calving_model ⟨2, 1, 3, 5, 9, 7 / 10, 20⟩ (fun m => m + 1)).2
        = (fun m : ℚ => m + 1)
            ((find_inversion_calving_model ⟨2, 1, 3, 5, 9, 7 / 10, 20⟩ (fun m => m + 1)).1) ∧
      ((7 / 10 : ℚ) = 0 →
        (find_inversion_calving_model ⟨2, 1, 3, 5, 9, 7 / 10, 20⟩ (fun m => m + 1)).1 = 0)) :=
  ⟨by norm_num, by norm_num,
    no_sign_change_clips_mu_star ⟨2, 1, 3, 5, 9, 7 / 10, 20⟩ (fun m => m + 1)
      (by norm_num) (by norm_num)⟩

/-! ## Round-trip consistency of a successful reconciliation

The tutorial checks, after find_inversion_calving succeeds, that
feeding the returned frontal thickness back into
calving_flux_from_depth reproduces the returned calving flux, and that
the last thickness of the inversion output equals the returned
calving_front_thick. -/

/-- Output record of a successful reconciliation, as displayed by the
tutorial: the frontal thickness, the calving flux, and the last
thickness stored in the inversion output. -/
structure InversionOut where
  calving_front_thick : ℚ
  calving_flux : ℚ
  inversion_thick : ℚ

/-- Modelled from the spec: the output of the external
find_inversion_calving at the reconciled water depth wd, when it
succeeds without clipping. The frontal thickness is wd plus the free
board, the calving flux is the calving law at wd, and the inversion
output thickness is the deformation thickness sia at that flux. -/
def find_inversion_calving_success (g : FrontGeom) (sia : ℚ → ℚ)
    (wd : ℚ) : InversionOut :=
  ⟨wd + g.free_board, calving_flux_from_depth g wd,
    sia (calving_flux_from_depth g wd)⟩

/-- C6: at a reconciled water depth (a root of the difference function),
feeding the returned frontal thickness back into the calving law yields
exactly the returned calving flux, and the last thickness of the
inversion output equals the returned frontal thickness. -/
theorem inversion_roundtrip_consistency (g : FrontGeom) (sia : ℚ → ℚ)
    (wd : ℚ) (hroot : to_solve_default g sia wd = 0) :
    calving_flux_from_thick g
        (find_inversion_calving_success g sia wd).calving_front_thick
      = (find_inversion_calving_success g sia wd).calving_flux ∧
    (find_inversion_calving_success g sia wd).inversion_thick
      = (find_inversion_calving_success g sia wd).calving_front_thick := by
  constructor
  · show calving_flux_from_thick g (wd + g.free_board)
      = calving_flux_from_depth g wd
    rw [calving_flux_from_thick, calving_flux_from_depth, water_depth]
    congr 1
    ring
  · show sia (calving_flux_from_depth g wd) = wd + g.free_board
    rw [to_solve_default] at hroot
    linarith

/-- Witness for C6 at the concrete configuration gEx, siaEx and the
reconciled water depth 1. -/
theorem inversion_roundtrip_consistency_witness :
    calving_flux_from_thick gEx
        (find_inversion_calving_success gEx siaEx 1).calving_front_thick
      = (find_inversion_calving_success gEx siaEx 1).calving_flux ∧
    (find_inversion_calving_success gEx siaEx 1).inversion_thick
      = (find_inversion_calving_success gEx siaEx 1).calving_front_thick := by
  exact inversion_roundtrip_consistency gEx siaEx 1
    (by rw [show to_solve_default gEx siaEx 1 = dEx 1 from rfl]; exact dEx_root1)

/-! ## Continue-on-error batch processing

The deal_with_errors tutorial sets cfg.PARAMS continue_on_error to
True, runs an entity task over a list of glaciers of which some fail,
and compiles glacier statistics whose error_task column names the task
in which an error occurred and whose error_msg column holds the
corresponding message. The machinery lives in the external library; it
is modelled here from the spec and the tutorial narrative. -/

/-- Per-glacier state: the glacier id and the recorded error task and
error message (none when no error occurred). -/
structure GlacierState where
  rid : String
  task_of_error : Option String
  msg_of_error : Option String
deriving DecidableEq

/-- A freshly initialized glacier directory with no recorded error. -/
def init_glacier (rid : String) : GlacierState :=
  ⟨rid, none, none⟩

/-- Modelled from the spec: the external workflow.execute_entity_task.
A task either succeeds on a glacier or fails with a message. With
continue_on_error set, a failure is recorded on the glacier (task name
and message) and the batch continues; without it, the batch aborts at
the first failure. -/
def execute_entity_task (continueOnError : Bool) (taskName : String)
    (task : String → Except String Unit) :
    List GlacierState → Except String (List GlacierState)
  | [] => Except.ok []
  | g :: gs =>
    match task g.rid with
    | Except.ok _ =>
      match execute_entity_task continueOnError taskName task gs with
      | Except.ok rest => Except.ok (g :: rest)
      | Except.error e => Except.error e
    | Except.error m =>
      if continueOnError then
        match execute_entity_task continueOnError taskName task gs with
        | Except.ok rest =>
          Except.ok (⟨g.rid, some taskName, some m⟩ :: rest)
        | Except.error e => Except.error e
      else Except.error m

/-- Modelled from the spec: utils.compile_glacier_statistics reduced to
the columns the claim is about: one row per glacier with its id, the
error_task column and the error_msg column. -/
def compile_glacier_statistics (gs : List GlacierState) :
    List (String × Option String × Option String) :=
  gs.map fun g => (g.rid, g.task_of_error, g.msg_of_error)

/-- The statistics row the claim predicts for one glacier: the error
columns name the failing task and its message, and are empty when the
task succeeded. -/
def expected_stats_row (taskName : String)
    (task : String → Except String Unit) (rid : String) :
    String × Option String × Option String :=
  match task rid with
  | Except.ok _ => (rid, none, none)
  | Except.error m => (rid, some taskName, some m)

/-- C7: with continue_on_error set to True, a per-glacier failure never
aborts the batch: the workflow returns a result for every glacier of the
list, and the compiled statistics hold, for each glacier, an error_task
column naming the task in which the error occurred and an error_msg
column with its message, both empty for glaciers whose task succeeded. -/
theorem continue_on_error_batch (taskName : String)
    (task : String → Except String Unit) (rids : List String) :
    ∃ out : List GlacierState,
      execute_entity_task true taskName task (rids.map init_glacier)
        = Except.ok out ∧
      out.length = rids.length ∧
      compile_glacier_statistics out
        = rids.map (expected_stats_row taskName task) := by
  induction rids with
  | nil => exact ⟨[], rfl, rfl, rfl⟩
  | cons r rs ih =>
    obtain ⟨out, hout, hlen, hstats⟩ := ih
    cases htask : task r with
    | ok u =>
      refine ⟨init_glacier r :: out, ?_, ?_, ?_⟩
      · rw [List.map_cons, execute_entity_task]
        rw [show (init_glacier r).rid = r from rfl, htask, hout]
      · rw [List.length_cons, List.length_cons, hlen]
      · rw [compile_glacier_statistics, List.map_cons, List.map_cons]
        rw [compile_glacier_statistics] at hstats
        rw [hstats]
        have hrow : ((init_glacier r).rid, (init_glacier r).task_of_error,
            (init_glacier r).msg_of_error) = expected_stats_row taskName task r := by
          rw [expected_stats_row, htask]
          rfl
        rw [hrow]
    | error m =>
      refine ⟨⟨r, some taskName, some m⟩ :: out, ?_, ?_, ?_⟩
      · rw [List.map_cons, execute_entity_task]
        rw [show (init_glacier r).rid = r from rfl, htask, hout]
        rfl
      · rw [List.length_cons, List.length_cons, hlen]
      · rw [compile_glacier_statistics, List.map_cons, List.map_cons]
        rw [compile_glacier_statistics] at hstats
        rw [hstats]
        have hrow : ((r : String), some taskName, some m)
            = expected_stats_row taskName task r := by
          rw [expected_stats_row, htask]
        rw [hrow]

/-! ## Repository file inventory

The repository consists of tutorial notebooks that demonstrate the
external OGGM public API plus static site and build configuration. We
transcribe the file tree with the kind of each file, one entry per file. -/

/-- Kind of a repository file: a tutorial notebook demonstrating the
external public API, the JupyterBook site configuration (which embeds
the table-of-contents YAML), a table-of-contents YAML, the CI workflow
that builds and publishes the site, or a markdown table-of-contents
page of the site. -/
inductive FileKind where
  | notebook : FileKind
  | bookConfig : FileKind
  | tocYaml : FileKind
  | ciWorkflow : FileKind
  | markdownTocPage : FileKind
deriving DecidableEq

/-- The repository file tree, one entry per file, with the kind read off
from the content of each file. The six files whose original names are
unknown are listed under their placeholder paths: part_000 is a
JupyterBook configuration, part_001 the area and length filter
notebook, part_002 the ice dynamics solvers notebook, part_003 the own
glacier inventory notebook, part_004 the machine learning notebook and
part_005 the Build Pages CI workflow. -/
def repo_files : List (String × FileKind) :=
  [("_config.yml", FileKind.bookConfig),
   ("book/10minutes.md", FileKind.markdownTocPage),
   ("notebooks/welcome.ipynb", FileKind.notebook),
   ("notebooks/10minutes/dynamical_spinup.ipynb", FileKind.notebook),
   ("notebooks/10minutes/run_with_gcm.ipynb", FileKind.notebook),
   ("notebooks/tutorials/centerlines_to_shape.ipynb", FileKind.notebook),
   ("notebooks/tutorials/deal_with_errors.ipynb", FileKind.notebook),
   ("notebooks/tutorials/elevation_bands_vs_centerlines.ipynb", FileKind.notebook),
   ("notebooks/tutorials/inversion.ipynb", FileKind.notebook),
   ("notebooks/tutorials/ioggm.ipynb", FileKind.notebook),
   ("notebooks/tutorials/massbalance_perturbation.ipynb", FileKind.notebook),
   ("notebooks/tutorials/oggm_shop.ipynb", FileKind.notebook),
   ("notebooks/tutorials/plot_mass_balance.ipynb", FileKind.notebook),
   ("notebooks/tutorials/preprocessing_errors.ipynb", FileKind.notebook),
   ("notebooks/tutorials/rgitopo_rgi7.ipynb", FileKind.notebook),
   ("notebooks/tutorials/where_are_the_flowlines.ipynb", FileKind.notebook),
   ("unnamed/part_000", FileKind.bookConfig),
   ("unnamed/part_001", FileKind.notebook),
   ("unnamed/part_002", FileKind.notebook),
   ("unnamed/part_003", FileKind.notebook),
   ("unnamed/part_004", FileKind.notebook),
   ("unnamed/part_005", FileKind.ciWorkflow)]

/-- A file kind counts as static site or build configuration. -/
def is_site_build_config : FileKind → Bool
  | FileKind.bookConfig => true
  | FileKind.tocYaml => true
  | FileKind.ciWorkflow => true
  | FileKind.markdownTocPage => true
  | FileKind.notebook => false

/-- C8: every file of the repository is either a Jupyter notebook
demonstrating the external package public API or static site and build
configuration; the inventory holds all 22 files and no file of any
other kind. -/
theorem repo_files_all_notebook_or_config :
    repo_files.length = 22 ∧
    repo_files.all
      (fun f => decide (f.2 = FileKind.notebook) || is_site_build_config f.2)
      = true :=
  ⟨rfl, rfl⟩

/-! ## Area and length spike filter

The area_length_filter tutorial removes upward spikes from a glacier
area or length time series with a rolling minimum of window
roll_yrs = 5 and then overwrites the first roll_yrs entries with the
filtered value at index roll_yrs. -/

/-- Window size of the rolling filter, as in the tutorial cell. -/
def roll_yrs : ℕ := 5

/-- Minimum of the w series values ending at index i (the pandas
ts.rolling(w).min() value at index i, for i at least w - 1). -/
def winMin (f : ℕ → ℚ) (w i : ℕ) : ℚ :=
  ((List.range w).map fun j => f (i - j)).foldr min (f i)

/-- The filtered series of the tutorial: the rolling minimum, with the
first roll_yrs entries overwritten with the value at index roll_yrs. -/
def spike_filter (f : ℕ → ℚ) (i : ℕ) : ℚ :=
  if i < roll_yrs then winMin f roll_yrs roll_yrs else winMin f roll_yrs i

theorem foldr_min_le_init (l : List ℚ) (a : ℚ) : l.foldr min a ≤ a := by
  induction l with
  | nil => exact le_refl a
  | cons x xs ih =>
    rw [List.foldr_cons]
    exact le_trans (min_le_right x (xs.foldr min a)) ih

theorem foldr_min_le_mem (l : List ℚ) (a x : ℚ) (hx : x ∈ l) :
    l.foldr min a ≤ x := by
  induction l with
  | nil => cases hx
  | cons y ys ih =>
    rw [List.foldr_cons]
    rcases List.mem_cons.mp hx with h | h
    · rw [h]
      exact min_le_left _ _
    · exact le_trans (min_le_right _ _) (ih h)

theorem foldr_min_eq_init_or_mem (l : List ℚ) (a : ℚ) :
    l.foldr min a = a ∨ l.foldr min a ∈ l := by
  induction l with
  | nil => exact Or.inl rfl
  | cons y ys ih =>
    rw [List.foldr_cons]
    rcases min_choice y (ys.foldr min a) with h | h
    · right
      rw [h]
      exact List.mem_cons_self y ys
    · rcases ih with h2 | h2
      · left
        rw [h, h2]
      · right
        rw [h]
        exact List.mem_cons_of_mem y h2

theorem winMin_le (f : ℕ → ℚ) (w i j : ℕ) (hj : j < w) :
    winMin f w i ≤ f (i - j) := by
  apply foldr_min_le_mem
  exact List.mem_map_of_mem _ (List.mem_range.mpr hj)

theorem winMin_attained (f : ℕ → ℚ) (w i : ℕ) (hw : 0 < w) :
    ∃ j, j < w ∧ winMin f w i = f (i - j) := by
  rcases foldr_min_eq_init_or_mem ((List.range w).map fun j => f (i - j)) (f i)
    with h | h
  · exact ⟨0, hw, by rw [winMin, h, Nat.sub_zero]⟩
  · obtain ⟨j, hj, hje⟩ := List.mem_map.mp h
    exact ⟨j, List.mem_range.mp hj, hje.symm⟩

/-- C9: the spike filter is a rolling minimum with window roll_yrs = 5:
at every index i at least roll_yrs - 1 the rolling value is the minimum
of the roll_yrs original values ending at i (hence at most the original
value at i), the filtered series beyond the overwritten region equals
that rolling minimum, and the first roll_yrs entries are overwritten
with the filtered value at index roll_yrs, so no upward spike survives
within a window. -/
theorem spike_filter_spec (f : ℕ → ℚ) (i : ℕ) :
    (roll_yrs - 1 ≤ i →
      (∀ j, j < roll_yrs → winMin f roll_yrs i ≤ f (i - j)) ∧
      (∃ j, j < roll_yrs ∧ winMin f roll_yrs i = f (i - j)) ∧
      winMin f roll_yrs i ≤ f i) ∧
    (roll_yrs ≤ i → spike_filter f i = winMin f roll_yrs i) ∧
    (i < roll_yrs → spike_filter f i = spike_filter f roll_yrs) := by
  refine ⟨?_, ?_, ?_⟩
  · intro _
    refine ⟨fun j hj => winMin_le f roll_yrs i j hj,
      winMin_attained f roll_yrs i (by norm_num [roll_yrs]), ?_⟩
    have h0 := winMin_le f roll_yrs i 0 (by norm_num [roll_yrs])
    rw [Nat.sub_zero] at h0
    exact h0
  · intro hi
    rw [spike_filter, if_neg (Nat.not_lt.mpr hi)]
  · intro hi
    rw [spike_filter, if_pos hi, spike_filter, if_neg (lt_irrefl roll_yrs)]

/-- Witness for C9: the identity series at index 7 (characterization of
the rolling minimum and the beyond-prefix value) and at index 2 (the
overwritten prefix). -/
theorem spike_filter_spec_witness :
    (roll_yrs - 1 ≤ 7 ∧
      (∀ j, j < roll_yrs →
        winMin (fun n => (n : ℚ)) roll_yrs 7 ≤ ((7 - j : ℕ) : ℚ)) ∧
      (∃ j, j < roll_yrs ∧
        winMin (fun n => (n : ℚ)) roll_yrs 7 = ((7 - j : ℕ) : ℚ)) ∧
      winMin (fun n => (n : ℚ)) roll_yrs 7 ≤ ((7 : ℕ) : ℚ)) ∧
    (roll_yrs ≤ 7 ∧
      spike_filter (fun n => (n : ℚ)) 7 = winMin (fun n => (n : ℚ)) roll_yrs 7) ∧
    (2 < roll_yrs ∧
      spike_filter (fun n => (n : ℚ)) 2 = spike_filter (fun n => (n : ℚ)) roll_yrs) :=
  ⟨⟨by decide, (spike_filter_spec (fun n => (n : ℚ)) 7).1 (by decide)⟩,
   ⟨by decide, (spike_filter_spec (fun n => (n : ℚ)) 7).2.1 (by decide)⟩,
   ⟨by decide, (spike_filter_spec (fun n => (n : ℚ)) 2).2.2 (by decide)⟩⟩

/-! ## The documentation CI workflow

The Build Pages workflow is triggered by push and pull_request events on
the branches master, stable and v1.5.3; its Push Book step carries the
condition github.event_name differs from pull_request, all other steps
are unconditional. -/

/-- The two GitHub event kinds the workflow is triggered by. -/
inductive GhEvent where
  | push : GhEvent
  | pull_request : GhEvent
deriving DecidableEq

/-- A workflow step: its name and the condition under which it runs. -/
structure WorkflowStep where
  name : String
  condition : GhEvent → Bool

/-- The steps of the build_pages job, in order, with the condition of
each step as written in the workflow file (only Push Book is guarded). -/
def build_pages_steps : List WorkflowStep :=
  [⟨"Checkout", fun _ => true⟩,
   ⟨"Fix git permission check", fun _ => true⟩,
   ⟨"Cache", fun _ => true⟩,
   ⟨"Install Dependencies", fun _ => true⟩,
   ⟨"Build Book", fun _ => true⟩,
   ⟨"Upload Build Artifacts", fun _ => true⟩,
   ⟨"Push Book", fun e => decide (e ≠ GhEvent.pull_request)⟩,
   ⟨"Shrink download cache", fun _ => true⟩]

/-- The branches on which the workflow triggers, for both events. -/
def trigger_branches : List String :=
  ["master", "stable", "v1.5.3"]

/-- The workflow runs for an event on a branch iff the branch is one of
the configured branches. -/
def workflow_triggered (branch : String) : Bool :=
  trigger_branches.contains branch

/-- The names of the steps that execute for a given triggering event. -/
def executed_steps (e : GhEvent) : List String :=
  (build_pages_steps.filter fun s => s.condition e).map WorkflowStep.name

/-- C10: on any configured branch, a pull_request run builds the book
and uploads the artifacts but never executes the Push Book publish
step, while a push run executes Push Book as well. -/
theorem push_book_not_on_pull_request (branch : String)
    (_htrig : workflow_triggered branch = true) :
    "Push Book" ∉ executed_steps GhEvent.pull_request ∧
    "Build Book" ∈ executed_steps GhEvent.pull_request ∧
    "Upload Build Artifacts" ∈ executed_steps GhEvent.pull_request ∧
    "Push Book" ∈ executed_steps GhEvent.push ∧
    "Build Book" ∈ executed_steps GhEvent.push := by
  refine ⟨?_, ?_, ?_, ?_, ?_⟩ <;> decide

/-- Witness for C10 on the branch master. -/
theorem push_book_not_on_pull_request_witness :
    workflow_triggered "master" = true ∧
    ("Push Book" ∉ executed_steps GhEvent.pull_request ∧
      "Build Book" ∈ executed_steps GhEvent.pull_request ∧
      "Upload Build Artifacts" ∈ executed_steps GhEvent.pull_request ∧
      "Push Book" ∈ executed_steps GhEvent.push ∧
      "Build Book" ∈ executed_steps GhEvent.push) :=
  ⟨by decide, push_book_not_on_pull_request "master" (by decide)⟩

end OGGM
